import Mathlib

/-!
Shallow embedding of the resilient Meta API client runtime
(src/src/meta-client.ts) and of the collaborators it composes.

The collaborators that live in src/utils (rate limiter, error handler,
pagination helper, auth manager) are not part of the source tree given
here; their definitions below are modelled from the specification and
are marked as such in their doc comments.  Everything else is translated
directly from src/src/meta-client.ts.

Network and quota effects are made explicit: every client operation
returns the list of observable events it performs (quota checks and
HTTP attempts, in order) together with its result.  The network is an
oracle mapping the attempt index to the decoded outcome of that attempt.
-/

/-- Failure classification of a single call outcome, following the
error taxonomy of the spec (transient network, 5xx, 429/rate limit,
provider auth, provider validation, other permanent provider error). -/
inductive ErrorClass : Type
  | transientNetwork
  | providerServerError
  | providerRateLimited
  | providerAuthInvalid
  | providerValidationError
  | permanentProviderError
deriving DecidableEq, Repr

/-- Modelled from the spec: the retry policy of the Backoff Executor
(src/utils/error-handler.ts is not in src).  Network errors, 5xx and
rate-limit classifications are retried; authentication and validation
errors (and other permanent provider errors) are not. -/
def retryable : ErrorClass → Bool
  | .transientNetwork => true
  | .providerServerError => true
  | .providerRateLimited => true
  | .providerAuthInvalid => false
  | .providerValidationError => false
  | .permanentProviderError => false

/-- An observable effect of the client: a quota-tracker consultation or
an outbound HTTP attempt. -/
inductive ApiEvent : Type
  | quotaCheck (scope : String) (isWrite : Bool)
  | httpAttempt (method : String) (url : String) (body : Option String)
deriving DecidableEq, Repr

/-- Whether an event is a quota-tracker consultation. -/
def ApiEvent.isQuotaCheck : ApiEvent → Bool
  | .quotaCheck _ _ => true
  | .httpAttempt _ _ _ => false

/-- Whether an event is an outbound HTTP attempt. -/
def ApiEvent.isHttpAttempt : ApiEvent → Bool
  | .quotaCheck _ _ => false
  | .httpAttempt _ _ _ => true

/-- Errors a client operation can surface to its caller: an argument
check that throws before any request, a quota-tracker rejection, or a
classified provider/API failure. -/
inductive ClientError : Type
  | invalidArgs (msg : String)
  | quotaExceeded
  | api (e : ErrorClass)
deriving DecidableEq, Repr

/-- Outcome of the Backoff Executor: the events of all attempts made,
the final result, and the number of attempts performed. -/
structure RetryOutcome (α : Type) where
  events : List ApiEvent
  result : Except ErrorClass α
  attempts : Nat
deriving Repr

/-- Modelled from the spec: the retry loop of the Backoff Executor
(src/utils/error-handler.ts is not in src).  The operation is invoked
with the current 0-indexed attempt number; a retryable failure is
re-executed while retry budget (fuel) remains, a terminal failure or a
success returns immediately.  Backoff delays are timing only and are
not modelled. -/
def retryLoop (op : Nat → List ApiEvent × Except ErrorClass α) :
    Nat → Nat → RetryOutcome α
  | 0, attempt => ⟨(op attempt).1, (op attempt).2, attempt + 1⟩
  | fuel + 1, attempt =>
    match (op attempt).2 with
    | .ok a => ⟨(op attempt).1, .ok a, attempt + 1⟩
    | .error e =>
      if retryable e then
        let rest := retryLoop op fuel (attempt + 1)
        ⟨(op attempt).1 ++ rest.events, rest.result, rest.attempts⟩
      else ⟨(op attempt).1, .error e, attempt + 1⟩

/-- Modelled from the spec: retryWithBackoff with a maximum total
attempt count (src/utils/error-handler.ts is not in src). -/
def retryWithBackoff (op : Nat → List ApiEvent × Except ErrorClass α)
    (maxAttempts : Nat) : RetryOutcome α :=
  retryLoop op (maxAttempts - 1) 0

/-- Base URL and API version held by the auth manager and used to build
request URLs. -/
structure ClientEnv : Type where
  baseUrl : String
  apiVersion : String
deriving DecidableEq, Repr

/-- The URL built by makeRequest: baseUrl/apiVersion/endpoint. -/
def requestUrl (env : ClientEnv) (endpoint : String) : String :=
  env.baseUrl ++ "/" ++ env.apiVersion ++ "/" ++ endpoint

/-- JavaScript string truthiness of an optional string argument:
`if (s)` is taken iff the argument is present and non-empty. -/
def optStringTruthy : Option String → Bool
  | some s => !s.isEmpty
  | none => false

/-- Modelled from the spec: scope-id canonicalization of the auth
manager (src/utils/auth.ts is not in src).  Prefixes an account id
with the provider prefix, idempotently. -/
def getAccountIdFmt (id : String) : String :=
  if id.startsWith "act_" then id else "act_" ++ id

/-- makeRequest from src/src/meta-client.ts.  Builds the URL, consults
the quota tracker iff the accountId argument is truthy (present and
non-empty), then delegates the transport call to the backoff executor.
The quota tracker itself is abstracted as an oracle `quota`; the
network (fetch plus response decoding/classification) is the oracle
`net`, indexed by attempt number.  The request body only flows into the
HTTP attempt event. -/
def makeRequest (env : ClientEnv) (quota : String → Bool → Except ClientError Unit)
    (net : Nat → Except ErrorClass α) (maxAttempts : Nat)
    (endpoint : String) (method : String) (body : Option String)
    (accountId : Option String) (isWriteCall : Bool) :
    List ApiEvent × Except ClientError α :=
  let url := requestUrl env endpoint
  let run := retryWithBackoff
    (fun attempt => ([ApiEvent.httpAttempt method url body], net attempt)) maxAttempts
  match accountId with
  | some a =>
    if a.isEmpty then (run.events, run.result.mapError ClientError.api)
    else
      match quota a isWriteCall with
      | .error e => ([ApiEvent.quotaCheck a isWriteCall], .error e)
      | .ok _ =>
        (ApiEvent.quotaCheck a isWriteCall :: run.events,
         run.result.mapError ClientError.api)
  | none => (run.events, run.result.mapError ClientError.api)

/-- The quota-consultation prefix of a makeRequest trace, as a function
of the accountId argument: one check when the argument is truthy,
nothing otherwise. -/
def quotaPrefix : Option String → Bool → List ApiEvent
  | some a, w => if a.isEmpty then [] else [ApiEvent.quotaCheck a w]
  | none, _ => []

/-- Cursor tokens of a provider paging block. -/
structure Cursors : Type where
  before : Option String
  after : Option String
deriving DecidableEq, Repr

/-- The provider paging block: cursor tokens plus optional full
next/previous page URLs. -/
structure Paging : Type where
  cursors : Option Cursors
  next : Option String
  previous : Option String
deriving DecidableEq, Repr

/-- The provider list envelope: record list plus optional paging
block. -/
structure MetaApiResponse (α : Type) : Type where
  data : List α
  paging : Option Paging
deriving DecidableEq, Repr

/-- Drops everything through the first scheme separator of an absolute
URL (the JavaScript URL constructor requires a scheme). -/
def dropScheme : List Char → List Char
  | [] => []
  | ':' :: '/' :: '/' :: rest => rest
  | _ :: rest => dropScheme rest

/-- Drops the authority of a scheme-stripped URL, keeping the portion
from the first path or query delimiter on. -/
def fromPathStart : List Char → List Char
  | [] => []
  | c :: rest => if c = '/' ∨ c = '?' then c :: rest else fromPathStart rest

/-- Splits a character list at the first occurrence of a delimiter; the
delimiter, when present, starts the second component. -/
def splitFirst (c : Char) : List Char → List Char × List Char
  | [] => ([], [])
  | x :: xs =>
    if x = c then ([], x :: xs)
    else
      let p := splitFirst c xs
      (x :: p.1, p.2)

/-- The pathname and search components of an absolute URL, as computed
by the JavaScript URL constructor on the URLs at hand (no fragment, no
userinfo): pathname is the part from the first slash after the
authority up to the query, defaulting to a single slash, and search is
the query from its question mark on. -/
def urlPathnameSearch (url : String) : String × String :=
  let pq := fromPathStart (dropScheme url.data)
  let p := splitFirst '?' pq
  (if p.1.isEmpty then "/" else String.mk p.1, String.mk p.2)

/-- The relative request path derived from a full next-page URL in
getAdAccounts: pathname without its leading slash, plus the search
component (new URL(next).pathname.substring(1) + search). -/
def relativizeUrl (full : String) : String :=
  let p := urlPathnameSearch full
  p.1.drop 1 ++ p.2

/-- The normalized pagination result: records of the current page,
forward/backward cursors, presence booleans, the relativized next-page
path, and the raw paging block (the analytics layer reads it back). -/
structure PaginatedResult (α : Type) : Type where
  data : List α
  forwardCursor : Option String
  backwardCursor : Option String
  hasNextPage : Bool
  hasPreviousPage : Bool
  nextPagePath : Option String
  paging : Option Paging
deriving DecidableEq, Repr

/-- Modelled from the spec: PaginationHelper.parsePaginatedResponse
(src/utils/pagination.ts is not in src).  Extracts the after/before
cursor tokens when present, relativizes a full next-page URL, and sets
the presence booleans purely from cursor/URL presence. -/
def parsePaginatedResponse (r : MetaApiResponse α) : PaginatedResult α :=
  let after := r.paging.bind fun p => p.cursors.bind Cursors.after
  let before := r.paging.bind fun p => p.cursors.bind Cursors.before
  let next := r.paging.bind Paging.next
  let previous := r.paging.bind Paging.previous
  { data := r.data
    forwardCursor := after
    backwardCursor := before
    hasNextPage := after.isSome || next.isSome
    hasPreviousPage := before.isSome || previous.isSome
    nextPagePath := next.map relativizeUrl
    paging := r.paging }

/-- Boolean success test on Except results. -/
def exceptIsOk : Except ε α → Bool
  | .ok _ => true
  | .error _ => false

/-- The rate-limit scope passed by getAdSets/getAds: the formatted
account id when the accountId argument is truthy, nothing otherwise
(accountId ? getAccountId(accountId) : undefined). -/
def scopeOfAccountId : Option String → Option String
  | some a => if a.isEmpty then none else some (getAccountIdFmt a)
  | none => none

/-- The fixed first-page endpoint of getAdAccounts. -/
def adAccountsStartUrl : String :=
  "me/adaccounts?fields=id,name,account_status,balance,currency,timezone_name,business&limit=100"

/-- One page fetch of the getAdAccounts loop: a makeRequest with no
accountId (so no quota consultation), with the per-page network oracle
selected by the requested endpoint. -/
def adAccountsFetch (env : ClientEnv) (quota : String → Bool → Except ClientError Unit)
    (net : String → Nat → Except ErrorClass (MetaApiResponse α)) (maxAttempts : Nat) :
    String → List ApiEvent × Except ClientError (MetaApiResponse α) :=
  fun nextUrl => makeRequest env quota (net nextUrl) maxAttempts nextUrl "GET" none none false

/-- The page-walking loop of getAdAccounts: fetch a page, accumulate
its records, and continue with the relativized paging.next URL while
one is present.  Fuel bounds the number of pages visited; none means
the loop did not finish within the given fuel (the source loop has no
page bound). -/
def getAdAccountsLoop (fetchPage : String → List ApiEvent × Except ClientError (MetaApiResponse α)) :
    Nat → String → Option (List ApiEvent × Except ClientError (List α))
  | 0, _ => none
  | fuel + 1, nextUrl =>
    let p := fetchPage nextUrl
    match p.2 with
    | .error e => some (p.1, .error e)
    | .ok resp =>
      match resp.paging.bind Paging.next with
      | some full =>
        match getAdAccountsLoop fetchPage fuel (relativizeUrl full) with
        | none => none
        | some (ev, r) => some (p.1 ++ ev, r.map fun rest => resp.data ++ rest)
      | none => some (p.1, .ok resp.data)

/-- getAdAccounts from src/src/meta-client.ts: walks all pages starting
from the fixed first-page endpoint. -/
def getAdAccounts (env : ClientEnv) (quota : String → Bool → Except ClientError Unit)
    (net : String → Nat → Except ErrorClass (MetaApiResponse α)) (maxAttempts : Nat)
    (fuel : Nat) : Option (List ApiEvent × Except ClientError (List α)) :=
  getAdAccountsLoop (adAccountsFetch env quota net maxAttempts) fuel adAccountsStartUrl

/-- The fixed field list requested by getCampaign. -/
def campaignFields : String :=
  "id,name,objective,status,effective_status,created_time,updated_time,start_time,stop_time,budget_remaining,daily_budget,lifetime_budget,account_id"

/-- getCampaigns from src/src/meta-client.ts: a GET on
formattedAccountId/campaigns with the formatted account id as rate
limit scope, with the decoded list envelope passed through the
pagination normalizer.  Query-string serialization of the parameters
is abstracted as the given query string. -/
def getCampaigns (env : ClientEnv) (quota : String → Bool → Except ClientError Unit)
    (net : Nat → Except ErrorClass (MetaApiResponse α)) (maxAttempts : Nat)
    (accountId : String) (query : String) :
    List ApiEvent × Except ClientError (PaginatedResult α) :=
  let formatted := getAccountIdFmt accountId
  let r := makeRequest env quota net maxAttempts (formatted ++ "/campaigns?" ++ query)
    "GET" none (some formatted) false
  (r.1, r.2.map parsePaginatedResponse)

/-- getCampaign from src/src/meta-client.ts: a single-resource GET with
no accountId, whose decoded body is returned directly. -/
def getCampaign (env : ClientEnv) (quota : String → Bool → Except ClientError Unit)
    (net : Nat → Except ErrorClass α) (maxAttempts : Nat) (campaignId : String) :
    List ApiEvent × Except ClientError α :=
  makeRequest env quota net maxAttempts (campaignId ++ "?fields=" ++ campaignFields)
    "GET" none none false

/-- updateCampaign from src/src/meta-client.ts: a POST on the campaign
id with accountId undefined and isWriteCall true.  The serialized
update body is abstracted as the given string. -/
def updateCampaign (env : ClientEnv) (quota : String → Bool → Except ClientError Unit)
    (net : Nat → Except ErrorClass α) (maxAttempts : Nat)
    (campaignId : String) (body : String) :
    List ApiEvent × Except ClientError α :=
  makeRequest env quota net maxAttempts campaignId "POST" (some body) none true

/-- deleteCampaign from src/src/meta-client.ts: a DELETE on the
campaign id with accountId undefined and isWriteCall true. -/
def deleteCampaign (env : ClientEnv) (quota : String → Bool → Except ClientError Unit)
    (net : Nat → Except ErrorClass α) (maxAttempts : Nat) (campaignId : String) :
    List ApiEvent × Except ClientError α :=
  makeRequest env quota net maxAttempts campaignId "DELETE" none none true

/-- createAd from src/src/meta-client.ts: a POST on adSetId/ads with
accountId deliberately undefined (the source comment notes the account
is unknown there) and isWriteCall true; its try/catch only logs and
rethrows. -/
def createAd (env : ClientEnv) (quota : String → Bool → Except ClientError Unit)
    (net : Nat → Except ErrorClass α) (maxAttempts : Nat)
    (adSetId : String) (body : String) :
    List ApiEvent × Except ClientError α :=
  makeRequest env quota net maxAttempts (adSetId ++ "/ads") "POST" (some body) none true

/-- batchRequest from src/src/meta-client.ts: a POST on the empty
endpoint with accountId undefined and isWriteCall true.  The serialized
batch body is abstracted as the given string. -/
def batchRequest (env : ClientEnv) (quota : String → Bool → Except ClientError Unit)
    (net : Nat → Except ErrorClass α) (maxAttempts : Nat) (body : String) :
    List ApiEvent × Except ClientError α :=
  makeRequest env quota net maxAttempts "" "POST" (some body) none true

/-- getAdSets from src/src/meta-client.ts: picks the endpoint from a
truthy campaignId, else a truthy accountId, else throws before any
quota check or network call; the rate-limit scope is the formatted
account id when accountId is truthy. -/
def getAdSets (env : ClientEnv) (quota : String → Bool → Except ClientError Unit)
    (net : Nat → Except ErrorClass (MetaApiResponse α)) (maxAttempts : Nat)
    (campaignId accountId : Option String) (query : String) :
    List ApiEvent × Except ClientError (PaginatedResult α) :=
  if optStringTruthy campaignId then
    let endpoint := campaignId.getD "" ++ "/adsets"
    let r := makeRequest env quota net maxAttempts (endpoint ++ "?" ++ query)
      "GET" none (scopeOfAccountId accountId) false
    (r.1, r.2.map parsePaginatedResponse)
  else if optStringTruthy accountId then
    let endpoint := getAccountIdFmt (accountId.getD "") ++ "/adsets"
    let r := makeRequest env quota net maxAttempts (endpoint ++ "?" ++ query)
      "GET" none (scopeOfAccountId accountId) false
    (r.1, r.2.map parsePaginatedResponse)
  else ([], .error (.invalidArgs "Either campaignId or accountId must be provided"))

/-- getAds from src/src/meta-client.ts: picks the endpoint from a
truthy adsetId, else campaignId, else accountId, else throws before
any quota check or network call; the rate-limit scope is the formatted
account id when accountId is truthy. -/
def getAds (env : ClientEnv) (quota : String → Bool → Except ClientError Unit)
    (net : Nat → Except ErrorClass (MetaApiResponse α)) (maxAttempts : Nat)
    (adsetId campaignId accountId : Option String) (query : String) :
    List ApiEvent × Except ClientError (PaginatedResult α) :=
  if optStringTruthy adsetId then
    let endpoint := adsetId.getD "" ++ "/ads"
    let r := makeRequest env quota net maxAttempts (endpoint ++ "?" ++ query)
      "GET" none (scopeOfAccountId accountId) false
    (r.1, r.2.map parsePaginatedResponse)
  else if optStringTruthy campaignId then
    let endpoint := campaignId.getD "" ++ "/ads"
    let r := makeRequest env quota net maxAttempts (endpoint ++ "?" ++ query)
      "GET" none (scopeOfAccountId accountId) false
    (r.1, r.2.map parsePaginatedResponse)
  else if optStringTruthy accountId then
    let endpoint := getAccountIdFmt (accountId.getD "") ++ "/ads"
    let r := makeRequest env quota net maxAttempts (endpoint ++ "?" ++ query)
      "GET" none (scopeOfAccountId accountId) false
    (r.1, r.2.map parsePaginatedResponse)
  else ([], .error (.invalidArgs "Either adsetId, campaignId, or accountId must be provided"))

/-- getFundingSources from src/src/meta-client.ts: a GET on
formattedAccountId/funding_source_details; on success the raw data
array of the envelope is returned, and any failure is swallowed into
an empty array. -/
def getFundingSources (env : ClientEnv) (quota : String → Bool → Except ClientError Unit)
    (net : Nat → Except ErrorClass (MetaApiResponse α)) (maxAttempts : Nat)
    (accountId : String) : List ApiEvent × Except ClientError (List α) :=
  let formatted := getAccountIdFmt accountId
  let r := makeRequest env quota net maxAttempts (formatted ++ "/funding_source_details")
    "GET" none (some formatted) false
  (r.1, .ok (match r.2 with
    | .ok resp => resp.data
    | .error _ => []))

/-- getAccountBusiness from src/src/meta-client.ts: a GET on
formattedAccountId/business whose decoded body is returned directly on
success, with any failure swallowed into the empty object (modelled by
the given emptyObject value). -/
def getAccountBusiness (env : ClientEnv) (quota : String → Bool → Except ClientError Unit)
    (net : Nat → Except ErrorClass β) (maxAttempts : Nat)
    (accountId : String) (emptyObject : β) : List ApiEvent × Except ClientError β :=
  let formatted := getAccountIdFmt accountId
  let r := makeRequest env quota net maxAttempts (formatted ++ "/business")
    "GET" none (some formatted) false
  (r.1, .ok (match r.2 with
    | .ok b => b
    | .error _ => emptyObject))

/-- Per-scope quota window: accumulated score, window start timestamp,
and optional block-until timestamp. -/
structure QuotaWindow : Type where
  score : Nat
  windowStart : Nat
  blockedUntil : Option Nat
deriving DecidableEq, Repr

/-- Static quota tier configuration: maximum score per window, decay
window length, block duration. -/
structure RateLimiterConfig : Type where
  maxScore : Nat
  decayLength : Nat
  blockDuration : Nat
deriving DecidableEq, Repr

/-- The quota tracker state: one window per scope key. -/
def QuotaState : Type := List (String × QuotaWindow)

/-- Looks up the window of a scope key. -/
def lookupWindow (key : String) : QuotaState → Option QuotaWindow
  | [] => none
  | (k, w) :: rest => if k = key then some w else lookupWindow key rest

/-- Replaces (or adds) the window of a scope key. -/
def setWindow (key : String) (w : QuotaWindow) : QuotaState → QuotaState
  | [] => [(key, w)]
  | (k, w0) :: rest =>
    if k = key then (key, w) :: rest else (k, w0) :: setWindow key w rest

/-- Modelled from the spec: checkAndReserve of the Quota Tracker
(src/utils/rate-limiter.ts is not in src).  A missing or expired
window (now at or past window start plus decay length) starts a new
window with score equal to the cost; otherwise, while the window is
blocked and the block has not elapsed, the call is blocked with no
further scoring; otherwise the cost is added to the score and the call
is blocked exactly when the resulting score exceeds the configured
maximum, setting block-until to now plus the block duration.  The
boolean is true when the call is blocked. -/
def checkAndReserve (cfg : RateLimiterConfig) (now : Nat) (key : String)
    (cost : Nat) (st : QuotaState) : Bool × QuotaState :=
  match lookupWindow key st with
  | none =>
    if cfg.maxScore < cost then
      (true, setWindow key ⟨cost, now, some (now + cfg.blockDuration)⟩ st)
    else
      (false, setWindow key ⟨cost, now, none⟩ st)
  | some w0 =>
    if w0.windowStart + cfg.decayLength ≤ now then
      if cfg.maxScore < cost then
        (true, setWindow key ⟨cost, now, some (now + cfg.blockDuration)⟩ st)
      else
        (false, setWindow key ⟨cost, now, none⟩ st)
    else
      match w0.blockedUntil with
      | some b =>
        if now < b then (true, st)
        else
          if cfg.maxScore < w0.score + cost then
            (true, setWindow key ⟨w0.score + cost, w0.windowStart, some (now + cfg.blockDuration)⟩ st)
          else
            (false, setWindow key ⟨w0.score + cost, w0.windowStart, w0.blockedUntil⟩ st)
      | none =>
        if cfg.maxScore < w0.score + cost then
          (true, setWindow key ⟨w0.score + cost, w0.windowStart, some (now + cfg.blockDuration)⟩ st)
        else
          (false, setWindow key ⟨w0.score + cost, w0.windowStart, w0.blockedUntil⟩ st)

/-- Runs a sequence of checkAndReserve calls for one scope key; each
call is a timestamp/cost pair, and the returned booleans record which
calls were blocked. -/
def runQuotaCalls (cfg : RateLimiterConfig) (key : String) :
    List (Nat × Nat) → QuotaState → List Bool × QuotaState
  | [], st => ([], st)
  | (t, c) :: rest, st =>
    let p := checkAndReserve cfg t key c st
    let q := runQuotaCalls cfg key rest p.2
    (p.1 :: q.1, q.2)

/-- The chain of page responses actually visited by the getAdAccounts
loop from a start endpoint: each page is the successful fetch of its
endpoint, every non-final page carries a full next-page URL whose
relativization is the next endpoint, and the final page carries no
next-page URL. -/
inductive PageChain (fetch : String → List ApiEvent × Except ClientError (MetaApiResponse α)) :
    String → List (MetaApiResponse α) → Prop
  | last (u : String) (resp : MetaApiResponse α)
      (hfetch : (fetch u).2 = .ok resp)
      (hnext : resp.paging.bind Paging.next = none) :
      PageChain fetch u [resp]
  | step (u : String) (resp : MetaApiResponse α) (full : String)
      (ps : List (MetaApiResponse α))
      (hfetch : (fetch u).2 = .ok resp)
      (hnext : resp.paging.bind Paging.next = some full)
      (hrest : PageChain fetch (relativizeUrl full) ps) :
      PageChain fetch u (resp :: ps)

/-- An HTTP attempt event is not a quota check. -/
lemma httpAttempt_not_quota (e : ApiEvent) (he : e.isHttpAttempt = true) :
    e.isQuotaCheck = false := by
  cases e <;> simp_all [ApiEvent.isHttpAttempt, ApiEvent.isQuotaCheck]

/-- A trace of HTTP attempts contains no quota-check event. -/
lemma all_http_filter_quota (l : List ApiEvent) (h : l.all ApiEvent.isHttpAttempt = true) :
    l.filter ApiEvent.isQuotaCheck = [] := by
  induction l with
  | nil => rfl
  | cons e rest ih =>
    rw [List.all_cons, Bool.and_eq_true] at h
    rw [List.filter_cons, httpAttempt_not_quota e h.1]
    simpa using ih h.2

/-- A trace of HTTP attempts answers false to the quota-check test. -/
lemma all_http_any_quota (l : List ApiEvent) (h : l.all ApiEvent.isHttpAttempt = true) :
    l.any ApiEvent.isQuotaCheck = false := by
  induction l with
  | nil => rfl
  | cons e rest ih =>
    rw [List.all_cons, Bool.and_eq_true] at h
    rw [List.any_cons, httpAttempt_not_quota e h.1]
    simpa using ih h.2

/-- Every event emitted by the retry loop comes from the operation, so
an operation that only performs HTTP attempts yields a trace of HTTP
attempts. -/
lemma retryLoop_events_http (op : Nat → List ApiEvent × Except ErrorClass α)
    (hop : ∀ k, ((op k).1).all ApiEvent.isHttpAttempt = true) :
    ∀ fuel attempt, ((retryLoop op fuel attempt).events).all ApiEvent.isHttpAttempt = true := by
  intro fuel
  induction fuel with
  | zero => intro attempt; simpa [retryLoop] using hop attempt
  | succ f ih =>
    intro attempt
    rcases h : (op attempt).2 with e | a
    · by_cases hr : retryable e
      · simp [retryLoop, h, hr, List.all_append, hop attempt, ih (attempt + 1)]
      · simp [retryLoop, h, hr, hop attempt]
    · simp [retryLoop, h, hop attempt]

/-- The event trace of makeRequest decomposes as the quota prefix
determined by the accountId argument, followed by HTTP attempts only. -/
lemma makeRequest_events (env : ClientEnv) (quota : String → Bool → Except ClientError Unit)
    (net : Nat → Except ErrorClass α) (n : Nat) (endpoint method : String)
    (body accountId : Option String) (isWriteCall : Bool) :
    ∃ rest, (makeRequest env quota net n endpoint method body accountId isWriteCall).1
        = quotaPrefix accountId isWriteCall ++ rest ∧
      rest.all ApiEvent.isHttpAttempt = true := by
  have hall : ((retryWithBackoff
      (fun attempt => ([ApiEvent.httpAttempt method (requestUrl env endpoint) body], net attempt))
      n).events).all ApiEvent.isHttpAttempt = true := by
    exact retryLoop_events_http _ (fun k => by simp [ApiEvent.isHttpAttempt]) _ _
  cases accountId with
  | none =>
    exact ⟨_, by simp [makeRequest, quotaPrefix], hall⟩
  | some a =>
    by_cases ha : a.isEmpty
    · exact ⟨_, by simp [makeRequest, quotaPrefix, ha], hall⟩
    · rcases hq : quota a isWriteCall with e | u
      · exact ⟨[], by simp [makeRequest, quotaPrefix, ha, hq], rfl⟩
      · exact ⟨_, by simp [makeRequest, quotaPrefix, ha, hq], hall⟩

/-- Updating a scope key's window makes it the one looked up. -/
lemma lookupWindow_setWindow (key : String) (w : QuotaWindow) (st : QuotaState) :
    lookupWindow key (setWindow key w st) = some w := by
  induction st with
  | nil => simp [setWindow, lookupWindow]
  | cons kv rest ih =>
    obtain ⟨k, w0⟩ := kv
    by_cases hk : k = key
    · simp [setWindow, lookupWindow, hk]
    · simp [setWindow, lookupWindow, hk, ih]

/-- While the accumulated score stays within the configured maximum and
every call lands inside the open window, no call of the sequence is
blocked. -/
lemma runQuotaCalls_within (cfg : RateLimiterConfig) (key : String) :
    ∀ (calls : List (Nat × Nat)) (st : QuotaState) (s t0 : Nat),
      lookupWindow key st = some ⟨s, t0, none⟩ →
      (∀ p ∈ calls, p.1 < t0 + cfg.decayLength) →
      s + (calls.map Prod.snd).sum ≤ cfg.maxScore →
      ((runQuotaCalls cfg key calls st).1.all fun b => b = false) = true := by
  intro calls
  induction calls with
  | nil => intro st s t0 _ _ _; simp [runQuotaCalls]
  | cons p rest ih =>
    intro st s t0 hlook htime hsum
    obtain ⟨t, c⟩ := p
    have ht : t < t0 + cfg.decayLength := htime (t, c) (by simp)
    have hsumrest : s + c + (rest.map Prod.snd).sum ≤ cfg.maxScore := by
      simp only [List.map_cons, List.sum_cons] at hsum
      omega
    have hnotexp : ¬ (t0 + cfg.decayLength ≤ t) := by omega
    have hnotover : ¬ (cfg.maxScore < s + c) := by omega
    have hstep : checkAndReserve cfg t key c st
        = (false, setWindow key ⟨s + c, t0, none⟩ st) := by
      simp [checkAndReserve, hlook, hnotexp, hnotover]
    simp only [runQuotaCalls, hstep, List.all_cons]
    refine Bool.and_eq_true .. |>.mpr ⟨by simp, ?_⟩
    exact ih (setWindow key ⟨s + c, t0, none⟩ st) (s + c) t0
      (lookupWindow_setWindow key _ st)
      (fun q hq => htime q (List.mem_cons_of_mem _ hq)) hsumrest

/-- The page walk returns the in-order concatenation of the records of
every page of a visited chain, within fuel equal to the chain length. -/
lemma pageChain_loop (fetch : String → List ApiEvent × Except ClientError (MetaApiResponse α)) :
    ∀ (u : String) (ps : List (MetaApiResponse α)), PageChain fetch u ps →
      ∃ ev, getAdAccountsLoop fetch ps.length u
        = some (ev, .ok (ps.map MetaApiResponse.data).flatten) := by
  intro u ps h
  induction h with
  | last v resp hfetch hnext =>
    exact ⟨(fetch v).1, by simp [getAdAccountsLoop, hfetch, hnext]⟩
  | step v resp full ps hfetch hnext _ ih =>
    obtain ⟨ev, hev⟩ := ih
    exact ⟨(fetch v).1 ++ ev, by simp [getAdAccountsLoop, hfetch, hnext, hev, Except.map]⟩

/-- Sample client environment for concrete instances. -/
def sampleEnv : ClientEnv := ⟨"https://graph.facebook.com", "v23.0"⟩

/-- Sample quota oracle that admits every call. -/
def sampleQuota : String → Bool → Except ClientError Unit := fun _ _ => .ok ()

/-- Sample network oracle returning a fixed numeric body. -/
def sampleNet : Nat → Except ErrorClass Nat := fun _ => .ok 7

/-- C1 (corrected): the quota tracker is consulted if and only if the
accountId argument of makeRequest is truthy, that is, supplied AND
non-empty, and when consulted the single check precedes every HTTP
attempt: the trace is the quota prefix followed by HTTP attempts
only.  (The original claim, consultation iff an accountId is supplied,
fails at the supplied empty string; see the counterexample.) -/
theorem c1_quota_gate (env : ClientEnv) (quota : String → Bool → Except ClientError Unit)
    (net : Nat → Except ErrorClass α) (n : Nat) (endpoint method : String)
    (body accountId : Option String) (isWriteCall : Bool) :
    ((makeRequest env quota net n endpoint method body accountId isWriteCall).1.any
        ApiEvent.isQuotaCheck = optStringTruthy accountId) ∧
    ∃ rest, (makeRequest env quota net n endpoint method body accountId isWriteCall).1
        = quotaPrefix accountId isWriteCall ++ rest ∧
      rest.all ApiEvent.isHttpAttempt = true := by
  obtain ⟨rest, hsplit, hhttp⟩ :=
    makeRequest_events env quota net n endpoint method body accountId isWriteCall
  refine ⟨?_, rest, hsplit, hhttp⟩
  rw [hsplit, List.any_append, all_http_any_quota rest hhttp]
  cases accountId with
  | none => simp [quotaPrefix, optStringTruthy]
  | some a =>
    by_cases ha : a.isEmpty
    · simp [quotaPrefix, optStringTruthy, ha]
    · simp [quotaPrefix, optStringTruthy, ha, ApiEvent.isQuotaCheck]

/-- C1 counterexample: an invocation of makeRequest that supplies an
accountId (the empty string) yet performs no quota consultation, so
consultation is not equivalent to an accountId being supplied. -/
theorem c1_quota_gate_cex :
    (makeRequest sampleEnv sampleQuota sampleNet 1 "me" "GET" none (some "") false).1.filter
        ApiEvent.isQuotaCheck = [] ∧
    (some ("" : String)).isSome = true := ⟨rfl, rfl⟩

/-- C2 (corrected): for a makeRequest invocation carrying a non-empty
accountId, the quota gate runs exactly once, as the first event of the
trace, before the backoff executor performs any attempt; every later
event is an HTTP attempt, so retries never trigger a further quota
check.  (The original claim, stated for every call carrying an
accountId, fails at the empty string, where the gate runs zero times;
see the counterexample.) -/
theorem c2_single_gate (env : ClientEnv) (quota : String → Bool → Except ClientError Unit)
    (net : Nat → Except ErrorClass α) (n : Nat) (endpoint method : String)
    (body : Option String) (a : String) (isWriteCall : Bool) (ha : a.isEmpty = false) :
    ∃ rest, (makeRequest env quota net n endpoint method body (some a) isWriteCall).1
        = ApiEvent.quotaCheck a isWriteCall :: rest ∧
      rest.all ApiEvent.isHttpAttempt = true ∧
      ((makeRequest env quota net n endpoint method body (some a) isWriteCall).1.filter
          ApiEvent.isQuotaCheck).length = 1 := by
  obtain ⟨rest, hsplit, hhttp⟩ :=
    makeRequest_events env quota net n endpoint method body (some a) isWriteCall
  rw [quotaPrefix, ha] at hsplit
  simp only [Bool.false_eq_true, if_false, List.singleton_append] at hsplit
  refine ⟨rest, hsplit, hhttp, ?_⟩
  rw [hsplit, List.filter_cons]
  simp [ApiEvent.isQuotaCheck, all_http_filter_quota rest hhttp]

/-- C2 witness: applying the single-gate theorem at a concrete
non-empty account id. -/
theorem c2_single_gate_witness :
    ("act_123" : String).isEmpty = false ∧
    ∃ rest, (makeRequest sampleEnv sampleQuota sampleNet 1 "act_123/campaigns" "GET" none
        (some "act_123") false).1
        = ApiEvent.quotaCheck "act_123" false :: rest ∧
      rest.all ApiEvent.isHttpAttempt = true ∧
      ((makeRequest sampleEnv sampleQuota sampleNet 1 "act_123/campaigns" "GET" none
          (some "act_123") false).1.filter ApiEvent.isQuotaCheck).length = 1 :=
  ⟨rfl, c2_single_gate sampleEnv sampleQuota sampleNet 1 "act_123/campaigns" "GET" none
    "act_123" false rfl⟩

/-- C2 counterexample: a makeRequest invocation carrying the empty
accountId performs zero quota checks, not exactly one. -/
theorem c2_single_gate_cex :
    ((makeRequest sampleEnv sampleQuota sampleNet 2 "123/adsets" "POST" (some "x") (some "")
        true).1.filter ApiEvent.isQuotaCheck).length = 0 ∧
    (0 : Nat) ≠ 1 := ⟨rfl, by decide⟩

/-- Second ad-accounts page of the sample network: no further page. -/
def page2 : MetaApiResponse String := ⟨["a2"], some ⟨some ⟨none, none⟩, none, none⟩⟩

/-- First ad-accounts page of the sample network: carries both an
after cursor and a full next-page URL. -/
def page1 : MetaApiResponse String :=
  ⟨["a1"], some ⟨some ⟨none, some "AAA"⟩,
    some "https://graph.facebook.com/v23.0/me/adaccounts?after=AAA", none⟩⟩

/-- Sample per-endpoint network oracle serving the two ad-accounts
pages. -/
def sampleNetPages : String → Nat → Except ErrorClass (MetaApiResponse String) :=
  fun u _ =>
    if u = adAccountsStartUrl then .ok page1
    else if u = "v23.0/me/adaccounts?after=AAA" then .ok page2
    else .error .permanentProviderError

/-- A page whose paging block has an after cursor but no next-page
URL: the normalizer reports a next page, the ad-accounts walk stops. -/
def cursorOnlyPage : MetaApiResponse String :=
  ⟨["b1"], some ⟨some ⟨none, some "CUR"⟩, none, none⟩⟩

/-- Sample network oracle always serving the cursor-only page. -/
def sampleNetCursorOnly : String → Nat → Except ErrorClass (MetaApiResponse String) :=
  fun _ _ => .ok cursorOnlyPage

/-- C3 (corrected): getAdAccounts returns the in-order concatenation of
the record lists of every visited page, where each follow-up endpoint
is derived by extracting the path and query of the full paging.next
URL, and the walk stops exactly when paging.next is absent.  (The
original claim, that the walk keys on the forward cursor and continues
until hasNextPage is false, fails when a page carries an after cursor
but no next URL; see the counterexample.) -/
theorem c3_walk_pages (env : ClientEnv) (quota : String → Bool → Except ClientError Unit)
    (net : String → Nat → Except ErrorClass (MetaApiResponse α)) (n : Nat)
    (ps : List (MetaApiResponse α))
    (h : PageChain (adAccountsFetch env quota net n) adAccountsStartUrl ps) :
    ∃ ev, getAdAccounts env quota net n ps.length
      = some (ev, .ok (ps.map MetaApiResponse.data).flatten) :=
  pageChain_loop (adAccountsFetch env quota net n) adAccountsStartUrl ps h

/-- C3 witness: applying the page-walk theorem to a concrete two-page
chain. -/
theorem c3_walk_pages_witness :
    PageChain (adAccountsFetch sampleEnv sampleQuota sampleNetPages 1) adAccountsStartUrl
      [page1, page2] ∧
    ∃ ev, getAdAccounts sampleEnv sampleQuota sampleNetPages 1 2
      = some (ev, .ok (([page1, page2].map MetaApiResponse.data).flatten)) := by
  have hchain : PageChain (adAccountsFetch sampleEnv sampleQuota sampleNetPages 1)
      adAccountsStartUrl [page1, page2] := by
    refine PageChain.step _ _ "https://graph.facebook.com/v23.0/me/adaccounts?after=AAA" _
      rfl rfl ?_
    exact PageChain.last _ _ rfl rfl
  exact ⟨hchain, c3_walk_pages sampleEnv sampleQuota sampleNetPages 1 [page1, page2] hchain⟩

/-- C3 counterexample: against a network whose first page carries an
after cursor but no next-page URL, getAdAccounts stops after one call,
although the pagination normalizer reports hasNextPage true for that
very response, so the walk does not continue until hasNextPage is
false. -/
theorem c3_walk_pages_cex :
    getAdAccounts sampleEnv sampleQuota sampleNetCursorOnly 1 5
      = some ([ApiEvent.httpAttempt "GET" (requestUrl sampleEnv adAccountsStartUrl) none],
          .ok ["b1"]) ∧
    (parsePaginatedResponse cursorOnlyPage).hasNextPage = true := ⟨rfl, rfl⟩

/-- Funding-sources list envelope of the sample network: carries an
after cursor, so its normalization would report a next page. -/
def fundingPage : MetaApiResponse String :=
  ⟨["f1"], some ⟨some ⟨none, some "FF"⟩, none, none⟩⟩

/-- Sample network oracle serving the funding-sources envelope. -/
def sampleNetFunding : Nat → Except ErrorClass (MetaApiResponse String) :=
  fun _ => .ok fundingPage

/-- C4 (corrected): getCampaigns passes its decoded list envelope
through the pagination normalizer before returning it, and getCampaign
returns its decoded body directly; but getFundingSources returns the
bare data array of its decoded list envelope without normalization, so
not every list envelope travelling through the request path is
normalized.  (See the counterexample.) -/
theorem c4_envelope_routing (env : ClientEnv) (quota : String → Bool → Except ClientError Unit)
    (net : Nat → Except ErrorClass (MetaApiResponse α)) (net2 : Nat → Except ErrorClass β)
    (net3 : Nat → Except ErrorClass (MetaApiResponse γ)) (n : Nat)
    (acct cid acct2 query : String) :
    ((getCampaigns env quota net n acct query).2
      = Except.map parsePaginatedResponse
          (makeRequest env quota net n (getAccountIdFmt acct ++ "/campaigns?" ++ query)
            "GET" none (some (getAccountIdFmt acct)) false).2) ∧
    ((getCampaign env quota net2 n cid).2
      = (makeRequest env quota net2 n (cid ++ "?fields=" ++ campaignFields)
          "GET" none none false).2) ∧
    ((getFundingSources env quota net3 n acct2).2
      = .ok (match (makeRequest env quota net3 n
              (getAccountIdFmt acct2 ++ "/funding_source_details")
              "GET" none (some (getAccountIdFmt acct2)) false).2 with
             | .ok resp => resp.data
             | .error _ => [])) := by
  refine ⟨?_, ?_, ?_⟩
  · simp only [getCampaigns]
  · simp only [getCampaign]
  · simp only [getFundingSources]

/-- C4 counterexample: a getFundingSources call whose decoded response
is a list envelope returns the bare data array to the caller; the
normalizer is never applied, and the pagination information it would
have produced (hasNextPage true) is discarded. -/
theorem c4_envelope_routing_cex :
    (getFundingSources sampleEnv sampleQuota sampleNetFunding 1 "123").2 = .ok ["f1"] ∧
    fundingPage.data = ["f1"] ∧
    (parsePaginatedResponse fundingPage).hasNextPage = true := ⟨rfl, rfl, rfl⟩

/-- C5 (confirmed): the pagination normalizer applied to an envelope
with after cursor X and no next URL yields hasNextPage true with
forward cursor X; applied to an envelope with no paging block at all
it yields hasNextPage false and hasPreviousPage false, whatever the
record lists are. -/
theorem c5_pagination_flags (α : Type) (records records2 : List α)
    (before prev : Option String) (x : String) :
    ((parsePaginatedResponse ⟨records, some ⟨some ⟨before, some x⟩, none, prev⟩⟩).hasNextPage
        = true ∧
     (parsePaginatedResponse ⟨records, some ⟨some ⟨before, some x⟩, none, prev⟩⟩).forwardCursor
        = some x) ∧
    ((parsePaginatedResponse (⟨records2, none⟩ : MetaApiResponse α)).hasNextPage = false ∧
     (parsePaginatedResponse (⟨records2, none⟩ : MetaApiResponse α)).hasPreviousPage = false) :=
  ⟨⟨rfl, rfl⟩, rfl, rfl⟩

/-- C6 (confirmed): a sequence of checkAndReserve calls for one scope
key, starting with no window for the key, whose timestamps all fall
inside the decay window opened by the first call and whose costs sum
to at most the configured maximum, has no blocked call; and a call
hitting a missing or expired window starts a new window whose score is
exactly the cost of that call. -/
theorem c6_quota_window (cfg : RateLimiterConfig) (key : String) :
    (∀ (t0 c0 : Nat) (rest : List (Nat × Nat)) (st : QuotaState),
      lookupWindow key st = none →
      (∀ p ∈ rest, p.1 < t0 + cfg.decayLength) →
      c0 + (rest.map Prod.snd).sum ≤ cfg.maxScore →
      ((runQuotaCalls cfg key ((t0, c0) :: rest) st).1.all fun b => b = false) = true) ∧
    (∀ (now cost : Nat) (st : QuotaState),
      (lookupWindow key st = none ∨
       ∃ w, lookupWindow key st = some w ∧ w.windowStart + cfg.decayLength ≤ now) →
      ∃ w, lookupWindow key (checkAndReserve cfg now key cost st).2 = some w ∧
        w.score = cost ∧ w.windowStart = now) := by
  constructor
  · intro t0 c0 rest st hnone htime hsum
    have hc0 : ¬ (cfg.maxScore < c0) := by omega
    have hstep : checkAndReserve cfg t0 key c0 st
        = (false, setWindow key ⟨c0, t0, none⟩ st) := by
      simp [checkAndReserve, hnone, hc0]
    simp only [runQuotaCalls, hstep, List.all_cons]
    refine Bool.and_eq_true .. |>.mpr ⟨by simp, ?_⟩
    exact runQuotaCalls_within cfg key rest (setWindow key ⟨c0, t0, none⟩ st) c0 t0
      (lookupWindow_setWindow key _ st) htime hsum
  · intro now cost st h
    rcases h with hnone | ⟨w0, hlook, hexp⟩
    · by_cases hover : cfg.maxScore < cost
      · exact ⟨⟨cost, now, some (now + cfg.blockDuration)⟩,
          by simp [checkAndReserve, hnone, hover, lookupWindow_setWindow], rfl, rfl⟩
      · exact ⟨⟨cost, now, none⟩,
          by simp [checkAndReserve, hnone, hover, lookupWindow_setWindow], rfl, rfl⟩
    · by_cases hover : cfg.maxScore < cost
      · exact ⟨⟨cost, now, some (now + cfg.blockDuration)⟩,
          by simp [checkAndReserve, hlook, hexp, hover, lookupWindow_setWindow], rfl, rfl⟩
      · exact ⟨⟨cost, now, none⟩,
          by simp [checkAndReserve, hlook, hexp, hover, lookupWindow_setWindow], rfl, rfl⟩

/-- C6 witness: applying the quota-window theorem to a concrete
three-call sequence against the low tier and to a concrete fresh
window. -/
theorem c6_quota_window_witness :
    lookupWindow "act_1" ([] : QuotaState) = none ∧
    (∀ p ∈ [((1 : Nat), (2 : Nat)), (2, 3)], p.1 < 0 + (300 : Nat)) ∧
    1 + ([((1 : Nat), (2 : Nat)), (2, 3)].map Prod.snd).sum ≤ 60 ∧
    ((runQuotaCalls ⟨60, 300, 60⟩ "act_1" [(0, 1), (1, 2), (2, 3)] []).1.all
        fun b => b = false) = true ∧
    ∃ w, lookupWindow "act_1" (checkAndReserve ⟨60, 300, 60⟩ 5 "act_1" 4 []).2 = some w ∧
      w.score = 4 ∧ w.windowStart = 5 :=
  ⟨rfl, by decide, by decide,
   (c6_quota_window ⟨60, 300, 60⟩ "act_1").1 0 1 [(1, 2), (2, 3)] [] rfl
     (by decide) (by decide),
   (c6_quota_window ⟨60, 300, 60⟩ "act_1").2 5 4 [] (Or.inl rfl)⟩

/-- C7 (confirmed): an operation whose first attempt fails with a
provider authentication error or a provider validation error is
returned by the backoff executor immediately, with that error and an
attempt count of exactly 1, for every maximum attempt budget. -/
theorem c7_terminal_not_retried (α : Type) (op : Nat → List ApiEvent × Except ErrorClass α)
    (maxAttempts : Nat) (e : ErrorClass)
    (hop : (op 0).2 = .error e)
    (hterm : e = .providerAuthInvalid ∨ e = .providerValidationError) :
    (retryWithBackoff op maxAttempts).result = .error e ∧
    (retryWithBackoff op maxAttempts).attempts = 1 := by
  have hr : retryable e = false := by
    rcases hterm with h | h <;> simp [h, retryable]
  unfold retryWithBackoff
  cases hm : maxAttempts - 1 with
  | zero => simp [retryLoop, hop]
  | succ f => simp [retryLoop, hop, hr]

/-- Sample operation whose every attempt fails with a provider
authentication error. -/
def sampleAuthFailOp : Nat → List ApiEvent × Except ErrorClass Nat :=
  fun _ => ([], .error .providerAuthInvalid)

/-- C7 witness: applying the terminal-failure theorem to a concrete
always-auth-failing operation under a budget of five attempts. -/
theorem c7_terminal_not_retried_witness :
    (sampleAuthFailOp 0).2 = .error .providerAuthInvalid ∧
    (retryWithBackoff sampleAuthFailOp 5).result = .error .providerAuthInvalid ∧
    (retryWithBackoff sampleAuthFailOp 5).attempts = 1 :=
  ⟨rfl, c7_terminal_not_retried Nat sampleAuthFailOp 5 .providerAuthInvalid rfl (Or.inl rfl)⟩

/-- C8 (confirmed): updateCampaign, deleteCampaign, createAd and
batchRequest all invoke makeRequest with no accountId, so none of
their event traces contains a quota consultation, for every
environment, oracle and argument. -/
theorem c8_writes_skip_quota (env : ClientEnv) (quota : String → Bool → Except ClientError Unit)
    (n : Nat) (α β γ δ : Type) (net1 : Nat → Except ErrorClass α)
    (net2 : Nat → Except ErrorClass β) (net3 : Nat → Except ErrorClass γ)
    (net4 : Nat → Except ErrorClass δ)
    (campaignId1 body1 campaignId2 adSetId body3 body4 : String) :
    (updateCampaign env quota net1 n campaignId1 body1).1.any ApiEvent.isQuotaCheck = false ∧
    (deleteCampaign env quota net2 n campaignId2).1.any ApiEvent.isQuotaCheck = false ∧
    (createAd env quota net3 n adSetId body3).1.any ApiEvent.isQuotaCheck = false ∧
    (batchRequest env quota net4 n body4).1.any ApiEvent.isQuotaCheck = false := by
  have key : ∀ (σ : Type) (net : Nat → Except ErrorClass σ) (endpoint method : String)
      (body : Option String) (w : Bool),
      (makeRequest env quota net n endpoint method body none w).1.any
        ApiEvent.isQuotaCheck = false := by
    intro σ net endpoint method body w
    obtain ⟨rest, hsplit, hhttp⟩ := makeRequest_events env quota net n endpoint method body none w
    rw [hsplit]
    simpa [quotaPrefix] using all_http_any_quota rest hhttp
  exact ⟨key α net1 _ _ _ _, key β net2 _ _ _ _, key γ net3 _ _ _ _, key δ net4 _ _ _ _⟩

/-- Sample network oracle whose every attempt fails with a transient
network error. -/
def sampleNetFail : Nat → Except ErrorClass (MetaApiResponse String) :=
  fun _ => .error .transientNetwork

/-- C9 (confirmed): getFundingSources always returns an ok result,
equal to the data array of the decoded envelope on success and to the
empty array on any underlying failure; getAccountBusiness always
returns an ok result, equal to the decoded body on success and to the
empty object on any underlying failure. -/
theorem c9_fallback_results (env : ClientEnv) (quota : String → Bool → Except ClientError Unit)
    (α β : Type) (net1 : Nat → Except ErrorClass (MetaApiResponse α))
    (net2 : Nat → Except ErrorClass β) (n : Nat) (acct1 acct2 : String) (emptyObject : β) :
    exceptIsOk (getFundingSources env quota net1 n acct1).2 = true ∧
    exceptIsOk (getAccountBusiness env quota net2 n acct2 emptyObject).2 = true ∧
    (∀ resp, (makeRequest env quota net1 n (getAccountIdFmt acct1 ++ "/funding_source_details")
        "GET" none (some (getAccountIdFmt acct1)) false).2 = .ok resp →
      (getFundingSources env quota net1 n acct1).2 = .ok resp.data) ∧
    (∀ e, (makeRequest env quota net1 n (getAccountIdFmt acct1 ++ "/funding_source_details")
        "GET" none (some (getAccountIdFmt acct1)) false).2 = .error e →
      (getFundingSources env quota net1 n acct1).2 = .ok []) ∧
    (∀ b, (makeRequest env quota net2 n (getAccountIdFmt acct2 ++ "/business")
        "GET" none (some (getAccountIdFmt acct2)) false).2 = .ok b →
      (getAccountBusiness env quota net2 n acct2 emptyObject).2 = .ok b) ∧
    (∀ e, (makeRequest env quota net2 n (getAccountIdFmt acct2 ++ "/business")
        "GET" none (some (getAccountIdFmt acct2)) false).2 = .error e →
      (getAccountBusiness env quota net2 n acct2 emptyObject).2 = .ok emptyObject) := by
  refine ⟨?_, ?_, ?_, ?_, ?_, ?_⟩
  · simp only [getFundingSources, exceptIsOk]
  · simp only [getAccountBusiness, exceptIsOk]
  · intro resp h; simp only [getFundingSources, h]
  · intro e h; simp only [getFundingSources, h]
  · intro b h; simp only [getAccountBusiness, h]
  · intro e h; simp only [getAccountBusiness, h]

/-- C9 witness: a concrete failing network, where getFundingSources
swallows the classified failure and returns the empty array. -/
theorem c9_fallback_results_witness :
    (makeRequest sampleEnv sampleQuota sampleNetFail 1
        (getAccountIdFmt "9" ++ "/funding_source_details")
        "GET" none (some (getAccountIdFmt "9")) false).2
      = .error (ClientError.api .transientNetwork) ∧
    (getFundingSources sampleEnv sampleQuota sampleNetFail 1 "9").2 = .ok [] :=
  ⟨rfl,
   (c9_fallback_results sampleEnv sampleQuota String Nat sampleNetFail sampleNet 1 "9" "9"
     0).2.2.2.1 (ClientError.api .transientNetwork) rfl⟩

/-- C10 (confirmed): getAdSets invoked with neither campaignId nor
accountId, and getAds invoked with none of adsetId, campaignId or
accountId, return an argument error with an empty event trace: no
quota consultation and no HTTP attempt happens. -/
theorem c10_missing_ids (env : ClientEnv) (quota : String → Bool → Except ClientError Unit)
    (α β : Type) (net1 : Nat → Except ErrorClass (MetaApiResponse α))
    (net2 : Nat → Except ErrorClass (MetaApiResponse β)) (n : Nat) (q1 q2 : String) :
    getAdSets env quota net1 n none none q1
      = ([], .error (ClientError.invalidArgs
          "Either campaignId or accountId must be provided")) ∧
    getAds env quota net2 n none none none q2
      = ([], .error (ClientError.invalidArgs
          "Either adsetId, campaignId, or accountId must be provided")) :=
  ⟨rfl, rfl⟩
